import Mathlib

/-!
# Verification of the PypeIt slit-edge tracing pipeline (`pypeit/traceslits.py`)

This file shallowly embeds the `TraceSlits` class of `pypeit/traceslits.py`.
The class is a thin stateful driver around functions of `pypeit.core.trace_slits`
(not part of the sources): those core functions are kept as universally
quantified operation records (`CoreOps`, `PixOps`, `FinishOps`), while every
piece of control flow, arithmetic and array bookkeeping that lives in
`traceslits.py` itself is embedded concretely:

* `make_binarr`           — `TraceSlits.make_binarr` (scipy `uniform_filter`,
                            `size=(3, 1)`, `mode='mirror'`, embedded exactly);
* `assignEdgesLeft/Right` — `TraceSlits._assign_edges`;
* `matchEdgesStep`        — `TraceSlits._match_edges` (budget check);
* `setLrminx`             — `TraceSlits._set_lrminx`;
* `maxgapPrep`            — `TraceSlits._maxgap_prep`;
* `resetEdgearrEdnum`     — `TraceSlits.reset_edgearr_ednum`;
* `noPca`                 — the no-PCA branch of `TraceSlits._pca`;
* `trim_slits`            — `TraceSlits._trim_slits`;
* `makePixelArrays`       — `TraceSlits._make_pixel_arrays`;
* `fillDict`              — `TraceSlits._fill_tslits_dict`;
* `chkForLongslit` logic inside `runFits` — `TraceSlits._chk_for_longslit`;
* `run` / `runRest` / `runFits` — `TraceSlits.run`;
* `add_user_slits`        — `TraceSlits.add_user_slits`.

Images are rational-valued (`ℚ`) since the Python code only performs exact
field arithmetic on them at the places studied here.  The `edgearr` label
image is a list of rows of integers.  Slit boundary arrays `lcen`/`rcen` of
shape `(nrows, nslit)` are represented slit-major, as a list of per-slit
columns, which matches how `_trim_slits` and `_pca` traverse them.
Python exceptions are an explicit `PyError`; `msgs.error` aborts are
`budgetError`, numpy reductions over empty selections are `valueError`,
`None` arithmetic is `typeError` and unbound names are `nameError`.
-/

/-- Python exceptions/aborts that the embedded code paths can raise. -/
inductive PyError where
  | budgetError
  | valueError
  | typeError
  | nameError (n : String)
deriving DecidableEq, Repr

/-- The signed integer label image `edgearr`, as a list of rows. -/
abbrev EdgeArr := List (List ℤ)

/-- One boundary curve: the column positions of an edge at each row. -/
abbrev Col := List ℚ

/-- A slit: its left boundary column and its right boundary column. -/
abbrev Slit := Col × Col

/-- Per-group polynomial coefficient vectors (one list of coefficients per
edge group), standing for the `(polyorder+1, ngroup)` coefficient arrays. -/
abbrev Coeffs := List (List ℚ)

/-- All entries of an `edgearr`, row-major. -/
def eaEntries (ea : EdgeArr) : List ℤ := ea.foldr (fun r acc => r ++ acc) []

/-- `np.max` over a whole `edgearr` (0 on an empty image, which the callers
below never rely on). -/
def eaMax (ea : EdgeArr) : ℤ :=
  match eaEntries ea with
  | [] => 0
  | x :: xs => xs.foldl max x

/-- `np.min` over a whole `edgearr` (0 on an empty image). -/
def eaMin (ea : EdgeArr) : ℤ :=
  match eaEntries ea with
  | [] => 0
  | x :: xs => xs.foldl min x

/-- `np.min` of a list of rationals (0 on `[]`; numpy would raise there and
the theorems below never depend on that case). -/
def minList (l : List ℚ) : ℚ :=
  match l with
  | [] => 0
  | x :: xs => xs.foldl min x

/-- `np.max` of a list of rationals (0 on `[]`). -/
def maxList (l : List ℚ) : ℚ :=
  match l with
  | [] => 0
  | x :: xs => xs.foldl max x

/-- Insert into a sorted list, keeping it sorted (ascending). -/
def insertSorted (x : ℚ) : List ℚ → List ℚ
  | [] => [x]
  | y :: ys => if x ≤ y then x :: y :: ys else y :: insertSorted x ys

/-- Insertion sort, ascending. -/
def sortQ (l : List ℚ) : List ℚ := l.foldr insertSorted []

/-- `np.median`: middle element of the sorted list, or the mean of the two
middle elements for even length (0 on `[]`). -/
def medianQ (l : List ℚ) : ℚ :=
  let s := sortQ l
  let n := s.length
  if n = 0 then 0
  else if n % 2 = 1 then s.getD (n / 2) 0
  else (s.getD (n / 2 - 1) 0 + s.getD (n / 2) 0) / 2

/-- The per-row widths `rcen[:,o] - lcen[:,o]` of a slit. -/
def slitWidths (s : Slit) : List ℚ := List.zipWith (fun r l => r - l) s.2 s.1

/-!
## `TraceSlits._trim_slits`

```python
nslit = self.lcen.shape[1]
mask = np.zeros(nslit)
for o in range(nslit):
    if np.min(self.lcen[:, o]) > self.mstrace.shape[1]:
        mask[o] = 1
    elif np.max(self.rcen[:, o]) < 0:
        mask[o] = 1
    if trim_short_slits:
        this_width = np.median(self.rcen[:,o]-self.lcen[:,o])*plate_scale
        if this_width < self.par['min_slit_width']:
            mask[o] = 1
wok = np.where(mask == 0)[0]
self.lcen = self.lcen[:, wok]
self.rcen = self.rcen[:, wok]
```

With the default `plate_scale = None` and `trim_short_slits = True`, the
multiplication `np.median(...) * plate_scale` raises `TypeError` at the
first loop iteration — so it raises exactly when the loop body runs at all,
i.e. when there is at least one slit.
-/

/-- The mask value (`True` = drop) that the `_trim_slits` loop assigns to one
slit, given a non-`None` plate scale. -/
def slitMask (trimShort : Bool) (ps : ℚ) (ncols : ℕ) (minW : ℚ) (s : Slit) : Bool :=
  let m1 : Bool :=
    if minList s.1 > (ncols : ℚ) then true
    else if maxList s.2 < 0 then true
    else false
  if trimShort then
    (if medianQ (slitWidths s) * ps < minW then true else m1)
  else m1

/-- `TraceSlits._trim_slits`.  `ncols` is `mstrace.shape[1]`, `minW` is
`par['min_slit_width']`.  `plateScale = none` models `plate_scale=None`. -/
def trim_slits (trimShort : Bool) (plateScale : Option ℚ) (ncols : ℕ) (minW : ℚ)
    (slits : List Slit) : Except PyError (List Slit) :=
  match plateScale with
  | some ps => .ok (slits.filter (fun s => !(slitMask trimShort ps ncols minW s)))
  | none =>
    if trimShort then
      if slits.isEmpty then .ok [] else .error .typeError
    else .ok (slits.filter (fun s => !(slitMask false 0 ncols minW s)))

/-!
## Smoothing: `TraceSlits.make_binarr`

```python
self.binarr = ndimage.uniform_filter(self.mstrace, size=(3, 1), mode='mirror')
```

scipy's `uniform_filter` with `size=(3, 1)` is a centered moving average over
a window of 3 rows and 1 column; `mode='mirror'` reflects indices about the
center of the boundary pixel (`-1 ↦ 1`, `n ↦ n-2`).
-/

/-- scipy `mode='mirror'` index reflection (one reflection step, which covers
every index a radius-1 window can request on an image with at least 2 rows). -/
def reflectIdx (n : ℕ) (i : ℤ) : ℤ :=
  if i < 0 then -i
  else if (n : ℤ) ≤ i then 2 * ((n : ℤ) - 1) - i
  else i

/-- Pixel access with mirrored row index (0 outside the column range). -/
def getPixQ (img : List (List ℚ)) (i : ℤ) (c : ℕ) : ℚ :=
  (img.getD (reflectIdx img.length i).toNat []).getD c 0

/-- Mean of an odd-size-`k` window of rows centered at row `r`, column `c`. -/
def windowMean (k : ℕ) (img : List (List ℚ)) (r c : ℕ) : ℚ :=
  (((List.range k).map (fun j => getPixQ img ((r : ℤ) + (j : ℤ) - (k / 2 : ℕ)) c)).sum) / k

/-- `ndimage.uniform_filter(img, size=(k, 1), mode='mirror')`: the uniform
filter applied along axis 0 (rows) only. -/
def uniform_filter_axis0 (k : ℕ) (img : List (List ℚ)) : List (List ℚ) :=
  (List.range img.length).map fun r =>
    (List.range ((img.getD r []).length)).map fun c => windowMean k img r c

/-- `TraceSlits.make_binarr`. -/
def make_binarr (img : List (List ℚ)) : List (List ℚ) :=
  uniform_filter_axis0 3 img

/-- Entry of a 2-D rational image, with 0 as out-of-range default. -/
def entryQ (img : List (List ℚ)) (r c : ℕ) : ℚ := (img.getD r []).getD c 0

/-!
## The abstract core operations

Everything `traceslits.py` delegates to `pypeit.core.trace_slits` and
`pypeit.core.pixels` (which are not part of the sources) is bundled into
operation records and universally quantified in the theorems below.
-/

/-- The `pypeit.core.pixels` functions used by `_make_pixel_arrays`. -/
structure PixOps where
  /-- `pixels.phys_to_pix(arr, pixlocn, 1)`. -/
  physToPix : List Col → List (List ℤ)
  /-- `pixels.slit_pixels(lcen, rcen, shape, pad)`. -/
  slitPixels : List Col → List Col → List (List ℤ)
  /-- `pixels.ximg_and_edgemask(lcen, rcen, slitpix, trim_edg)`. -/
  ximgEdge : List Col → List Col → List (List ℤ) → List (List ℚ) × List (List Bool)

/-- The `pypeit.core.trace_slits` functions that `TraceSlits.run` drives. -/
structure CoreOps where
  /-- `trace_slits.edgearr_from_binarr(...)`: the initial detection image. -/
  edgearrFromBinarr : EdgeArr
  /-- `trace_slits.edgearr_from_user(...)`: the single-slit detection image. -/
  edgearrSingle : EdgeArr
  /-- `trace_slits.match_edges(edgearr, ednum)`: updated image and counts. -/
  matchEdges : EdgeArr → EdgeArr × ℕ × ℕ
  /-- `trace_slits.edgearr_add_left_right(...)`. -/
  addLeftRight : EdgeArr → ℕ → ℕ → EdgeArr × ℕ × ℕ
  /-- `trace_slits.assign_slits(binarr, edgearr, lor, ...)`. -/
  assignSlits : EdgeArr → ℤ → EdgeArr
  /-- `trace_slits.edgearr_close_slits(binarr, edgearr, edgearrcp, ...)`. -/
  closeSlits : EdgeArr → EdgeArr → EdgeArr
  /-- `trace_slits.edgearr_final_left_right(...)`. -/
  finalLeftRight : EdgeArr → EdgeArr × ℕ × ℕ
  /-- `trace_slits.edgearr_tcrude(...)`. -/
  tcrude : EdgeArr → EdgeArr
  /-- `trace_slits.edgearr_mslit_sync(...)`. -/
  mslitSync : EdgeArr → EdgeArr
  /-- `trace_slits.add_user_edges(...)`. -/
  addUserEdges : EdgeArr → EdgeArr
  /-- `trace_slits.edgearr_ignore_orders(...)` (its edgearr result; the
  `lmin..rmax` it also returns are overwritten by `_set_lrminx`). -/
  ignoreOrders : EdgeArr → EdgeArr
  /-- `trace_slits.fit_edges(edgearr, mn, mx, plxbin, plybin, left, ...)`:
  the fitted coefficient array (the auxiliary outputs are not consumed by
  the control flow embedded here). -/
  fitEdges : EdgeArr → ℤ → ℤ → Bool → Coeffs
  /-- `trace_slits.synchronize_edges(...)`: the synchronized per-slit
  `lcent`/`rcent` curves. -/
  syncEdges : EdgeArr → Coeffs → Coeffs → List Col × List Col
  /-- `trace_slits.pca_order_slit_edges(...)` as slit pairs plus mask. -/
  pcaOrder : List Col → List Col → List Slit × List Bool
  /-- `trace_slits.pca_pixel_slit_edges(...)` as slit pairs plus mask. -/
  pcaPixel : List Col → List Col → List Slit × List Bool
  /-- The `pypeit.core.pixels` collaborators. -/
  pix : PixOps

/-- The flat configuration fields of `TraceSlitsPar` that `run` consults. -/
structure RunPar where
  /-- `par['single']` (a slit is user-specified when nonempty). -/
  single : List ℚ
  /-- `par['maxgap']`. -/
  maxgap : Option ℚ
  /-- `par['pcatype']`. -/
  pcatype : String
  /-- `par['min_slit_width']`. -/
  minSlitWidth : ℚ

/-- Modelled from the spec: `pypeit.utils.func_val` is not part of the
sources.  Per the spec the fitter regresses column against row with a
legendre/polynomial family over the physical coordinate normalized by the
`minv`/`maxv` range; we model evaluation as a polynomial in that normalized
variable. -/
def funcVal (c : List ℚ) (x minv maxv : ℚ) : ℚ :=
  let t := if maxv = minv then x else 2 * (x - minv) / (maxv - minv) - 1
  c.foldr (fun a acc => a + t * acc) 0

/-- First column `coeff[:, 0]` of a coefficient array. -/
def firstCol (c : Coeffs) : List ℚ := c.headD []

/-!
## Concrete pieces of the driver
-/

/-- The left half of `TraceSlits._assign_edges`:

```python
if self.lcnt == 1:
    self.edgearr[np.where(self.edgearr <= -2*self.ednum)] = -self.ednum
else:
    trace_slits.assign_slits(self.binarr, self.edgearr, lor=-1, ...)
```
-/
def assignEdgesLeft (ops : CoreOps) (ednum : ℕ) (lcnt : ℕ) (ea : EdgeArr) : EdgeArr :=
  if lcnt = 1 then
    ea.map (List.map (fun v => if v ≤ -(2 * (ednum : ℤ)) then -(ednum : ℤ) else v))
  else ops.assignSlits ea (-1)

/-- The right half of `TraceSlits._assign_edges`:

```python
if self.rcnt == 1:
    self.edgearr[np.where(self.edgearr >= 2*self.ednum)] = self.ednum
else:
    trace_slits.assign_slits(self.binarr, self.edgearr, lor=+1, ...)
```
-/
def assignEdgesRight (ops : CoreOps) (ednum : ℕ) (rcnt : ℕ) (ea : EdgeArr) : EdgeArr :=
  if rcnt = 1 then
    ea.map (List.map (fun v => if v ≥ 2 * (ednum : ℤ) then (ednum : ℤ) else v))
  else ops.assignSlits ea 1

/-- `TraceSlits._assign_edges`: the left branch, then the right branch. -/
def assignEdgesStep (ops : CoreOps) (ednum : ℕ) (lcnt rcnt : ℕ) (ea : EdgeArr) : EdgeArr :=
  assignEdgesRight ops ednum rcnt (assignEdgesLeft ops ednum lcnt ea)

/-- `TraceSlits._match_edges`:

```python
self.lcnt, self.rcnt = trace_slits.match_edges(self.edgearr, self.ednum)
if self.lcnt >= self.ednum or self.rcnt >= self.ednum:
    msgs.error("Found more edges than allowed by ednum. ...")
```
-/
def matchEdgesStep (ops : CoreOps) (ednum : ℕ) (ea : EdgeArr) :
    Except PyError (EdgeArr × ℕ × ℕ) :=
  let r := ops.matchEdges ea
  if r.2.1 ≥ ednum ∨ r.2.2 ≥ ednum then .error .budgetError
  else .ok r

/-- `TraceSlits._set_lrminx`:

```python
ww = np.where(self.edgearr < 0)
self.lmin, self.lmax = -np.max(self.edgearr[ww]), -np.min(self.edgearr[ww])
ww = np.where(self.edgearr > 0)
self.rmin, self.rmax = np.min(self.edgearr[ww]), np.max(self.edgearr[ww])
```

`none` models the `ValueError` numpy raises when a side has no pixels. -/
def setLrminx (ea : EdgeArr) : Option (ℤ × ℤ × ℤ × ℤ) :=
  let negs := (eaEntries ea).filter (fun v => v < 0)
  let poss := (eaEntries ea).filter (fun v => v > 0)
  match negs, poss with
  | [], _ => none
  | _, [] => none
  | n :: ns, p :: ps =>
    some (-((n :: ns).foldl max n), -((n :: ns).foldl min n),
          (p :: ps).foldl min p, (p :: ps).foldl max p)

/-- `TraceSlits._maxgap_prep`: returns the shifted image and the copy
`edgearrcp`.

```python
self.edgearrcp = self.edgearr.copy()
self.edgearr[np.where(self.edgearr < 0)] += 1 + np.max(self.edgearr) - np.min(self.edgearr)
```
-/
def maxgapPrep (ea : EdgeArr) : EdgeArr × EdgeArr :=
  let mx := eaMax ea
  let mn := eaMin ea
  (ea.map (List.map (fun v => if v < 0 then v + 1 + mx - mn else v)), ea)

/-- `TraceSlits.reset_edgearr_ednum`:

```python
if np.max(self.edgearr) < self.ednum:
    neg = np.where(self.edgearr < 0)
    self.edgearr[neg] -= (self.ednum - 1)
    pos = np.where(self.edgearr > 0)
    self.edgearr[pos] += (self.ednum - 1)
```
-/
def resetEdgearrEdnum (ednum : ℕ) (ea : EdgeArr) : EdgeArr :=
  if eaMax ea < (ednum : ℤ) then
    ea.map (List.map (fun v =>
      if v < 0 then v - ((ednum : ℤ) - 1)
      else if v > 0 then v + ((ednum : ℤ) - 1)
      else v))
  else ea

/-- The no-PCA branch of `TraceSlits._pca`:

```python
allord = np.arange(self.lcent.shape[0])
maskord = np.where((np.all(self.lcent, axis=1) == False)
                    | (np.all(self.rcent, axis=1) == False))[0]
ww = np.where(np.in1d(allord, maskord) == False)[0]
self.lcen = self.lcent[ww, :].T.copy()
self.rcen = self.rcent[ww, :].T.copy()
self.extrapord = np.zeros(self.lcen.shape[1], dtype=np.bool)
```

A slit survives when every entry of both of its curves is nonzero. -/
def noPca (lcent rcent : List Col) : List Slit × List Bool :=
  let kept := (lcent.zip rcent).filter
    (fun p => p.1.all (fun q => decide (q ≠ 0)) && p.2.all (fun q => decide (q ≠ 0)))
  (kept, List.replicate kept.length false)

/-- `TraceSlits._pca`: dispatch on `par['pcatype']`; the `order`/`pixel`
variants live in the core module, the fallback is `noPca` above.  Also
returns the steps the chosen branch appends. -/
def pcaStep (ops : CoreOps) (par : RunPar) (lcent rcent : List Col) :
    (List Slit × List Bool) × List String :=
  if par.pcatype = "order" then (ops.pcaOrder lcent rcent, ["_pca_order_slit_edges"])
  else if par.pcatype = "pixel" then (ops.pcaPixel lcent rcent, ["_pca_pixel_slit_edges"])
  else (noPca lcent rcent, [])

/-!
## Pixel maps: `TraceSlits._make_pixel_arrays` and `_fill_tslits_dict`
-/

/-- Elementwise `0.5 * (lcen + rcen)`. -/
def avgCols (lcen rcen : List Col) : List Col :=
  List.zipWith (List.zipWith (fun a b => (a + b) / 2)) lcen rcen

/-- `astype(np.int)`: numpy float-to-int conversion truncates toward zero. -/
def truncQ (q : ℚ) : ℤ := q.num / (q.den : ℤ)

/-- Mean of a list of rationals (0 on `[]`). -/
def meanQ (l : List ℚ) : ℚ := if l.length = 0 then 0 else l.sum / l.length

/-- `(rcen - lcen).mean(0).astype(np.int)`: the per-slit integer widths. -/
def pixwidOf (lcen rcen : List Col) : List ℤ :=
  List.zipWith (fun l r => truncQ (meanQ (List.zipWith (fun b a => b - a) r l))) lcen rcen

/-- The fields of a `TraceSlits` instance that `_make_pixel_arrays` reads and
writes. -/
structure PixState where
  lcen : List Col
  rcen : List Col
  lcenTweak : Option (List Col)
  rcenTweak : Option (List Col)
  pixcen : List (List ℤ)
  pixwid : List ℤ
  lordpix : List (List ℤ)
  rordpix : List (List ℤ)
  slitpix : List (List ℤ)
  ximg : List (List ℚ)
  edgeMask : List (List Bool)

/-- `TraceSlits._make_pixel_arrays`:

```python
if self.lcen_tweak is not None:
    lcen = self.lcen_tweak
    rcen = self.rcen_tweak
else:
    lcen = self.lcen
    rcen = self.rcen
self.pixcen = pixels.phys_to_pix(0.5*(lcen+rcen), self.pixlocn, 1)
self.pixwid = (rcen-lcen).mean(0).astype(np.int)
self.lordpix = pixels.phys_to_pix(lcen, self.pixlocn, 1)
self.rordpix = pixels.phys_to_pix(rcen, self.pixlocn, 1)
self.slitpix = pixels.slit_pixels(lcen, rcen, self.mstrace.shape, self.par['pad'])
self.ximg, self.edge_mask = pixels.ximg_and_edgemask(lcen, rcen, self.slitpix, trim_edg=self.par['trim'])
```
-/
def makePixelArrays (pops : PixOps) (s : PixState) : PixState :=
  let lcen := match s.lcenTweak with | some lt => lt | none => s.lcen
  let rcen := match s.lcenTweak with | some _ => s.rcenTweak.getD s.rcen | none => s.rcen
  let sp := pops.slitPixels lcen rcen
  let xe := pops.ximgEdge lcen rcen sp
  { s with
    pixcen := pops.physToPix (avgCols lcen rcen)
    pixwid := pixwidOf lcen rcen
    lordpix := pops.physToPix lcen
    rordpix := pops.physToPix rcen
    slitpix := sp
    ximg := xe.1
    edgeMask := xe.2 }

/-- The `tslits_dict` that `run` hands back (`_fill_tslits_dict`). -/
structure TslitsDict where
  lcen : List Col
  rcen : List Col
  pixcen : List (List ℤ)
  pixwid : List ℤ
  lordpix : List (List ℤ)
  rordpix : List (List ℤ)
  extrapord : List Bool
  slitpix : List (List ℤ)
  ximg : List (List ℚ)
  edgeMask : List (List Bool)
deriving DecidableEq, Repr

/-- A fresh `PixState` as `run` has it when it reaches
`_make_pixel_arrays` (no tweaked boundaries yet). -/
def initPixState (lcen rcen : List Col) : PixState :=
  { lcen := lcen, rcen := rcen, lcenTweak := none, rcenTweak := none,
    pixcen := [], pixwid := [], lordpix := [], rordpix := [], slitpix := [],
    ximg := [], edgeMask := [] }

/-- `_make_pixel_arrays` followed by `_fill_tslits_dict`, as executed at the
end of `run`. -/
def fillDict (pops : PixOps) (lcen rcen : List Col) (extrap : List Bool) : TslitsDict :=
  let s := makePixelArrays pops (initPixState lcen rcen)
  { lcen := s.lcenTweak.getD s.lcen
    rcen := if s.lcenTweak.isSome then s.rcenTweak.getD s.rcen else s.rcen
    pixcen := s.pixcen
    pixwid := s.pixwid
    lordpix := s.lordpix
    rordpix := s.rordpix
    extrapord := extrap
    slitpix := s.slitpix
    ximg := s.ximg
    edgeMask := s.edgeMask }

/-!
## `TraceSlits.run`

`run` is split exactly along its own control flow: `run` performs detection,
edge matching and `_add_left_right` (with the early `return None`);
`runRest` performs the stages from `_maxgap_prep` to the fits; `runFits`
performs `_set_lrminx`, the two `_fit_edges` calls and the
`_chk_for_longslit` branch against the synchronize/PCA/trim path.

The constructor runs `make_binarr`, so every run starts with that step
already logged.  `xint` is `pixlocn[:, 0, 0]` (the physical row coordinate,
of height `nrows`); `_chk_for_longslit` evaluates the two fitted polynomials
over it with `minvf = plxbin[0, 0]` and `maxvf = plxbin[-1, 0]`, its first
and last entries.
-/

/-- The outcome of `TraceSlits.run`: the returned `tslits_dict` (`none` for
the "no slits, skip this detector" return) and the `steps` log. -/
structure RunOut where
  tslits : Option TslitsDict
  steps : List String
deriving DecidableEq, Repr

/-- The `_trim_slits` → `_make_pixel_arrays` → `_fill_tslits_dict` tail of
the general (non-longslit) path of `run`. -/
def runTrimStage (ops : CoreOps) (par : RunPar) (ncols : ℕ) (arms : Bool)
    (plateScale : Option ℚ) (slits : List Slit) (extrap : List Bool)
    (steps : List String) : Except PyError RunOut :=
  match trim_slits arms plateScale ncols par.minSlitWidth slits with
  | .error e => .error e
  | .ok kept =>
    .ok ⟨some (fillDict ops.pix (kept.map Prod.fst) (kept.map Prod.snd) extrap),
         steps ++ ["_trim_slits"]⟩

/-- `_set_lrminx`, `_fit_edges('left')`, `_fit_edges('right')`, then either
the `_chk_for_longslit` shortcut or `_synchronize` → `_pca` →
`_trim_slits` → `_make_pixel_arrays` → `_fill_tslits_dict`. -/
def runFits (ops : CoreOps) (par : RunPar) (ncols : ℕ) (xint : List ℚ)
    (arms : Bool) (plateScale : Option ℚ) (ea : EdgeArr) (steps : List String) :
    Except PyError RunOut :=
  match setLrminx ea with
  | none => .error .valueError
  | some (lmin, lmax, rmin, rmax) =>
    let lcoeff := ops.fitEdges ea lmin lmax true
    let rcoeff := ops.fitEdges ea rmin rmax false
    let steps1 := steps ++ ["_fit_edges_left", "_fit_edges_right"]
    if lmax + 1 - lmin = 1 ∧ rmax + 1 - rmin = 1 then
      let minvf := xint.headD 0
      let maxvf := xint.getLastD 0
      let lcen := [xint.map (fun x => funcVal (firstCol lcoeff) x minvf maxvf)]
      let rcen := [xint.map (fun x => funcVal (firstCol rcoeff) x minvf maxvf)]
      .ok ⟨some (fillDict ops.pix lcen rcen [false]), steps1⟩
    else
      let lr := ops.syncEdges ea lcoeff rcoeff
      let steps2 := steps1 ++ ["_synchronize"]
      let pe := pcaStep ops par lr.1 lr.2
      runTrimStage ops par ncols arms plateScale pe.1.1 pe.1.2 (steps2 ++ pe.2)

/-- The stages of `run` after the `_add_left_right` early return:
`_maxgap_prep`?, `_assign_edges`, `_maxgap_close`?, `_final_left_right`?,
`_mslit_tcrude`/`_mslit_sync`?, `add_user_slits`?, `_ignore_orders`?,
then `runFits`. -/
def runRest (ops : CoreOps) (par : RunPar) (ednum : ℕ) (ncols : ℕ) (xint : List ℚ)
    (arms ignoreOrdersFlag addUser : Bool) (plateScale : Option ℚ)
    (ea : EdgeArr) (lcnt rcnt : ℕ) (steps : List String) : Except PyError RunOut :=
  let mg := match par.maxgap with
    | some _ => let p := maxgapPrep ea; (p.1, some p.2, steps ++ ["_maxgap_prep"])
    | none => (ea, none, steps)
  let ea4 := assignEdgesStep ops ednum lcnt rcnt mg.1
  let steps4 := mg.2.2 ++ ["_assign_edges"]
  let cl := match par.maxgap, mg.2.1 with
    | some _, some cp => (ops.closeSlits ea4 cp, steps4 ++ ["_maxgap_close"])
    | _, _ => (ea4, steps4)
  let fl := if par.single.isEmpty then
      ((ops.finalLeftRight cl.1).1, cl.2 ++ ["_final_left_right"])
    else cl
  let ms := if arms then
      (ops.mslitSync (ops.tcrude fl.1), fl.2 ++ ["_mslit_tcrude", "_mslit_sync"])
    else fl
  let au := if addUser then
      (ops.addUserEdges (resetEdgearrEdnum ednum ms.1), ms.2 ++ ["add_user_slits"])
    else ms
  let io := if ignoreOrdersFlag then
      (ops.ignoreOrders au.1, au.2 ++ ["_ignore_orders"])
    else au
  runFits ops par ncols xint arms plateScale io.1 io.2

/-- The detection stage of `run`: `_edgearr_single_slit` when
`len(par['single']) > 0`, else `_edgearr_from_binarr`; together with the
steps logged so far (`make_binarr` runs in the constructor). -/
def detect (ops : CoreOps) (par : RunPar) : EdgeArr × List String :=
  if par.single.isEmpty
  then (ops.edgearrFromBinarr, ["make_binarr", "_edgearr_from_binarr"])
  else (ops.edgearrSingle, ["make_binarr", "_edgearr_single_slit"])

/-- The `_add_left_right` stage of `run`, with its early `return None` when
both edge counts come back zero; otherwise the remaining stages run. -/
def runAddLR (ops : CoreOps) (par : RunPar) (ednum : ℕ) (ncols : ℕ) (xint : List ℚ)
    (arms ignoreOrdersFlag addUser : Bool) (plateScale : Option ℚ)
    (ea : EdgeArr) (lcnt rcnt : ℕ) (steps : List String) : Except PyError RunOut :=
  let al := ops.addLeftRight ea lcnt rcnt
  let steps2 := steps ++ ["_add_left_right"]
  if al.2.1 = 0 ∧ al.2.2 = 0 then .ok ⟨none, steps2⟩
  else runRest ops par ednum ncols xint arms ignoreOrdersFlag addUser plateScale
        al.1 al.2.1 al.2.2 steps2

/-- `TraceSlits.run(arms, ignore_orders, add_user_slits, plate_scale)`.
`addUser` stands for `add_user_slits is not None` (the user edges
themselves live in `ops.addUserEdges`). -/
def run (ops : CoreOps) (par : RunPar) (ednum : ℕ) (ncols : ℕ) (xint : List ℚ)
    (arms ignoreOrdersFlag addUser : Bool) (plateScale : Option ℚ) :
    Except PyError RunOut :=
  let det := detect ops par
  match matchEdgesStep ops ednum det.1 with
  | .error e => .error e
  | .ok t =>
    runAddLR ops par ednum ncols xint arms ignoreOrdersFlag addUser plateScale
      t.1 t.2.1 t.2.2 (det.2 ++ ["_match_edges"])

/-!
## `TraceSlits.add_user_slits`

```python
def add_user_slits(self, user_slits, run_to_finish=False):
    self.reset_edgearr_ednum()
    self.edgearr = trace_slits.add_user_edges(self.edgearr, self.siglev, self.tc_dict, user_slits)
    if run_to_finish:
        self._set_lrminx()
        self._fit_edges('left')
        self._fit_edges('right')
        self._synchronize()
        self._pca()
        self._trim_slits(plate_scale = plate_scale)
    self.steps.append(inspect.stack()[0][3])
```

The body binds no local names beyond its parameters, and the module defines
no global named `plate_scale`, so the keyword-argument expression
`plate_scale` in the final call cannot be resolved: Python raises
`NameError` as soon as that line is reached.
-/

/-- The names bound in the local scope of `add_user_slits`: its parameters.
No statement in the body assigns a bare name (all assignments are to
attributes of `self`). -/
def addUserSlitsScopeNames : List String := ["self", "user_slits", "run_to_finish"]

/-- The module-level names of `pypeit/traceslits.py`: the `__future__`
imports, the imported modules/objects, and the module's own definitions. -/
def traceslitsModuleGlobals : List String :=
  ["absolute_import", "division", "print_function",
   "inspect", "np", "os", "Popen", "ndimage", "reload", "fits", "ltu",
   "msgs", "debugger", "pixels", "trace_slits", "utils", "masterframe",
   "ginga", "traceimage", "pypeitpar", "parset_to_dict",
   "TraceSlits", "load_traceslit_files"]

/-- Python name resolution for a bare name read inside `add_user_slits`:
local scope, then module globals; an unresolved name raises `NameError`. -/
def lookupName (locals globals : List String) (n : String) : Except PyError Unit :=
  if n ∈ locals ∨ n ∈ globals then .ok () else .error (.nameError n)

/-- The stages the `run_to_finish` branch drives, on an abstract instance
state `S`; each may raise (`_set_lrminx` can raise `ValueError`, the others
run core-module code). -/
structure FinishOps (S : Type) where
  setLrminxStep : S → Except PyError S
  fitLeft : S → Except PyError S
  fitRight : S → Except PyError S
  synchronizeStep : S → Except PyError S
  pcaRun : S → Except PyError S
  trimStep : S → Except PyError S

/-- `TraceSlits.add_user_slits`.  `addEdges` is the (total) state update of
the first two lines; when `runToFinish` is set the five stages run and then
the keyword argument `plate_scale = plate_scale` of the `_trim_slits` call
is evaluated — which requires resolving the bare name `plate_scale`. -/
def add_user_slits {S : Type} (ops : FinishOps S) (addEdges : S → S)
    (runToFinish : Bool) (st : S) : Except PyError S :=
  let st1 := addEdges st
  if runToFinish then
    match ops.setLrminxStep st1 with
    | .error e => .error e
    | .ok st2 =>
      match ops.fitLeft st2 with
      | .error e => .error e
      | .ok st3 =>
        match ops.fitRight st3 with
        | .error e => .error e
        | .ok st4 =>
          match ops.synchronizeStep st4 with
          | .error e => .error e
          | .ok st5 =>
            match ops.pcaRun st5 with
            | .error e => .error e
            | .ok st6 =>
              match lookupName addUserSlitsScopeNames traceslitsModuleGlobals
                  "plate_scale" with
              | .error e => .error e
              | .ok _ => ops.trimStep st6
  else .ok st1

/-- `FinishOps` whose five stages never raise, for stating that even then
the `run_to_finish` branch fails. -/
def totalFinishOps {S : Type} (f1 f2 f3 f4 f5 g : S → S) : FinishOps S :=
  { setLrminxStep := fun s => .ok (f1 s)
    fitLeft := fun s => .ok (f2 s)
    fitRight := fun s => .ok (f3 s)
    synchronizeStep := fun s => .ok (f4 s)
    pcaRun := fun s => .ok (f5 s)
    trimStep := fun s => .ok (g s) }

/-!
## Helper lemmas
-/

/-- A slit's `_trim_slits` mask is clear exactly when it passes the
off-detector predicates and (when enabled) the short-slit width predicate. -/
theorem slitMask_eq_false_iff (short : Bool) (ps : ℚ) (ncols : ℕ) (minW : ℚ) (s : Slit) :
    slitMask short ps ncols minW s = false ↔
      (minList s.1 ≤ (ncols : ℚ) ∧ 0 ≤ maxList s.2 ∧
        (short = true → minW ≤ medianQ (slitWidths s) * ps)) := by
  unfold slitMask
  cases short <;> split_ifs with h1 h2 <;> simp_all

/-!
## Claim C3 — trimming is monotonic, sound and order-preserving
-/

/-- C3: for every input slit set (with a supplied plate scale), `_trim_slits`
returns at most as many slits as it received; every retained slit satisfies
all enabled predicates (left-edge minimum does not exceed the detector's
column count, right-edge maximum is not below zero, and — when the
short-slit cut is enabled — median width times plate scale is at least
`min_slit_width`); every dropped slit violates at least one of them; and the
survivors are a sublist of the input (order preserved, compaction only). -/
theorem trim_slits_monotone_sound_ordered (short : Bool) (p : ℚ) (ncols : ℕ)
    (minW : ℚ) (slits : List Slit) :
    ∃ out, trim_slits short (some p) ncols minW slits = .ok out ∧
      out.length ≤ slits.length ∧
      out.Sublist slits ∧
      (∀ s ∈ out, minList s.1 ≤ (ncols : ℚ) ∧ 0 ≤ maxList s.2 ∧
        (short = true → minW ≤ medianQ (slitWidths s) * p)) ∧
      (∀ s ∈ slits, s ∉ out →
        ¬(minList s.1 ≤ (ncols : ℚ) ∧ 0 ≤ maxList s.2 ∧
          (short = true → minW ≤ medianQ (slitWidths s) * p))) := by
  refine ⟨_, rfl, List.length_filter_le _ _, List.filter_sublist _, ?_, ?_⟩
  · intro s hs
    have h := List.of_mem_filter hs
    rw [Bool.not_eq_true', slitMask_eq_false_iff] at h
    exact h
  · intro s hs hout hkeep
    exact hout (List.mem_filter_of_mem hs
      (by rw [Bool.not_eq_true', slitMask_eq_false_iff]; exact hkeep))

/-!
## Claim C1 — the left<right invariant is not enforced

`_trim_slits` only tests the two off-detector predicates and the median
width; a slit pair whose left boundary fails to stay strictly below its
right boundary at some rows is nevertheless retained whenever it passes
those tests, and `run` then returns it.
-/

/-- C1 (amended): trimming drops a slit pair only for the off-detector or
(when enabled) median-width predicates; any slit passing them is retained —
including one that violates `left(row) < right(row)` at some row — so the
left<right invariant is not guaranteed for the trimmed output. -/
theorem trim_slits_keeps_any_passing_slit (short : Bool) (p : ℚ) (ncols : ℕ)
    (minW : ℚ) (slits : List Slit) (s : Slit) (hs : s ∈ slits)
    (h1 : minList s.1 ≤ (ncols : ℚ)) (h2 : 0 ≤ maxList s.2)
    (h3 : short = true → minW ≤ medianQ (slitWidths s) * p) :
    ∃ out, trim_slits short (some p) ncols minW slits = .ok out ∧ s ∈ out := by
  refine ⟨_, rfl, ?_⟩
  exact List.mem_filter_of_mem hs
    (by rw [Bool.not_eq_true', slitMask_eq_false_iff]; exact ⟨h1, h2, h3⟩)

/-- Witness for `trim_slits_keeps_any_passing_slit`: the slit
`([5, 5], [5, 9])` has `left(row 0) = right(row 0) = 5`, violating
left<right, yet it passes every trimming predicate (median width 2 with
plate scale 1 against minimum width 1) and is retained. -/
theorem trim_slits_keeps_any_passing_slit_witness :
    ¬((5 : ℚ) < 5) ∧
      ∃ out, trim_slits true (some 1) 100 1 [([5, 5], [5, 9])] = .ok out ∧
        (([5, 5], [5, 9]) : Slit) ∈ out :=
  ⟨by norm_num,
   trim_slits_keeps_any_passing_slit true 1 100 1 [([5, 5], [5, 9])]
     ([5, 5], [5, 9]) (by decide) (by with_unfolding_all decide)
     (by with_unfolding_all decide) (fun _ => by with_unfolding_all decide)⟩

/-- Trivial pixel-map collaborators for concrete runs. -/
def trivPixOps : PixOps :=
  { physToPix := fun _ => []
    slitPixels := fun _ _ => []
    ximgEdge := fun _ _ _ => ([], []) }

/-- Concrete core operations driving `run` down the general multi-slit path
to a retained degenerate slit: two left groups and one right group, and a
synchronized slit pair whose left and right boundaries touch at row 0. -/
def degOps : CoreOps :=
  { edgearrFromBinarr := [[-1, -2, 1]]
    edgearrSingle := []
    matchEdges := fun ea => (ea, 2, 1)
    addLeftRight := fun ea l r => (ea, l, r)
    assignSlits := fun ea _ => ea
    closeSlits := fun ea _ => ea
    finalLeftRight := fun ea => (ea, 2, 1)
    tcrude := fun ea => ea
    mslitSync := fun ea => ea
    addUserEdges := fun ea => ea
    ignoreOrders := fun ea => ea
    fitEdges := fun _ _ _ _ => []
    syncEdges := fun _ _ _ => ([[5, 5]], [[5, 9]])
    pcaOrder := fun _ _ => ([], [])
    pcaPixel := fun _ _ => ([], [])
    pix := trivPixOps }

/-- Default-like configuration: no user slit, no gap merging, no PCA. -/
def degPar : RunPar :=
  { single := [], maxgap := none, pcatype := "", minSlitWidth := 1 }

/-- C1 counterexample: a complete `run` (general multi-slit path, plate
scale 1) returns a slit set whose single slit has `left(row 0) = 5` and
`right(row 0) = 5` — the pair fails `left < right` after synchronization
yet survives trimming and is returned, so the claimed output invariant is
false. -/
theorem run_output_violates_left_lt_right :
    run degOps degPar 5 100 [0, 1] true false false (some 1) =
      .ok ⟨some { lcen := [[5, 5]], rcen := [[5, 9]], pixcen := [], pixwid := [2],
                  lordpix := [], rordpix := [], extrapord := [false], slitpix := [],
                  ximg := [], edgeMask := [] },
           ["make_binarr", "_edgearr_from_binarr", "_match_edges", "_add_left_right",
            "_assign_edges", "_final_left_right", "_mslit_tcrude", "_mslit_sync",
            "_fit_edges_left", "_fit_edges_right", "_synchronize", "_trim_slits"]⟩ ∧
      ¬((5 : ℚ) < 5) := by
  constructor
  · with_unfolding_all rfl
  · norm_num

/-- Every successful outcome of the trim stage carries a `tslits_dict`. -/
theorem runTrimStage_ok_tslits_isSome (ops : CoreOps) (par : RunPar) (ncols : ℕ)
    (arms : Bool) (ps : Option ℚ) (slits : List Slit) (extrap : List Bool)
    (steps : List String) (st : RunOut)
    (h : runTrimStage ops par ncols arms ps slits extrap steps = .ok st) :
    st.tslits.isSome := by
  unfold runTrimStage at h
  split at h
  · cases h
  · injection h with h2
    subst h2
    rfl

/-- Every successful outcome of `runFits` carries a `tslits_dict`. -/
theorem runFits_ok_tslits_isSome (ops : CoreOps) (par : RunPar) (ncols : ℕ)
    (xint : List ℚ) (arms : Bool) (ps : Option ℚ) (ea : EdgeArr)
    (steps : List String) (st : RunOut)
    (h : runFits ops par ncols xint arms ps ea steps = .ok st) :
    st.tslits.isSome := by
  unfold runFits at h
  split at h
  · cases h
  · split at h
    · injection h with h2
      subst h2
      rfl
    · exact runTrimStage_ok_tslits_isSome _ _ _ _ _ _ _ _ _ h

/-- With `trim_short_slits = True` (`arms`) and `plate_scale = None`, the
trim stage succeeds only on the empty slit set. -/
theorem runTrimStage_none_plate_scale (ops : CoreOps) (par : RunPar) (ncols : ℕ)
    (slits : List Slit) (extrap : List Bool) (steps : List String) (out : RunOut)
    (h : runTrimStage ops par ncols true none slits extrap steps = .ok out) :
    out = ⟨some (fillDict ops.pix [] [] extrap), steps ++ ["_trim_slits"]⟩ := by
  revert h
  unfold runTrimStage trim_slits
  cases slits <;> intro h
  · injection h with h2
    exact h2.symm
  · cases h

/-- Every successful outcome of the stages after `_add_left_right` carries a
`tslits_dict`: no later stage can produce the `None` return. -/
theorem runRest_ok_tslits_isSome (ops : CoreOps) (par : RunPar) (ednum ncols : ℕ)
    (xint : List ℚ) (arms io au : Bool) (ps : Option ℚ) (ea : EdgeArr)
    (lcnt rcnt : ℕ) (steps : List String) (st : RunOut)
    (h : runRest ops par ednum ncols xint arms io au ps ea lcnt rcnt steps = .ok st) :
    st.tslits.isSome := by
  unfold runRest at h
  exact runFits_ok_tslits_isSome _ _ _ _ _ _ _ _ _ h

/-!
## Claim C4 — the `None` return happens exactly at zero edge counts
-/

/-- C4: provided edge matching stays within the id budget, `run` returns
`None` exactly when `_add_left_right` reports zero left and zero right
edges; and in that case the steps log ends at `_add_left_right` — no later
stage executes.  This zero-count outcome is an ordinary `.ok` value, not an
error. -/
theorem run_none_iff_zero_counts (ops : CoreOps) (par : RunPar) (ednum ncols : ℕ)
    (xint : List ℚ) (arms io au : Bool) (ps : Option ℚ)
    (ea1 : EdgeArr) (l1 r1 : ℕ)
    (hmatch : ops.matchEdges (detect ops par).1 = (ea1, l1, r1))
    (hl1 : l1 < ednum) (hr1 : r1 < ednum)
    (ea2 : EdgeArr) (l2 r2 : ℕ)
    (hadd : ops.addLeftRight ea1 l1 r1 = (ea2, l2, r2)) :
    ((∃ st : RunOut, run ops par ednum ncols xint arms io au ps = .ok st ∧
        st.tslits = none) ↔ (l2 = 0 ∧ r2 = 0)) ∧
    (l2 = 0 ∧ r2 = 0 →
      run ops par ednum ncols xint arms io au ps =
        .ok ⟨none, (detect ops par).2 ++ ["_match_edges", "_add_left_right"]⟩) := by
  have hstep : matchEdgesStep ops ednum (detect ops par).1 = .ok (ea1, l1, r1) := by
    unfold matchEdgesStep
    rw [hmatch]
    rw [if_neg]
    intro hor
    rcases hor with h | h <;> simp at h <;> omega
  have hrun : run ops par ednum ncols xint arms io au ps =
      runAddLR ops par ednum ncols xint arms io au ps ea1 l1 r1
        ((detect ops par).2 ++ ["_match_edges"]) := by
    unfold run
    simp only []
    rw [hstep]
  have haddlr : runAddLR ops par ednum ncols xint arms io au ps ea1 l1 r1
      ((detect ops par).2 ++ ["_match_edges"]) =
      if l2 = 0 ∧ r2 = 0 then
        .ok ⟨none, ((detect ops par).2 ++ ["_match_edges"]) ++ ["_add_left_right"]⟩
      else runRest ops par ednum ncols xint arms io au ps ea2 l2 r2
        (((detect ops par).2 ++ ["_match_edges"]) ++ ["_add_left_right"]) := by
    unfold runAddLR
    rw [hadd]
  refine ⟨⟨?_, ?_⟩, ?_⟩
  · rintro ⟨st, hok, hnone⟩
    by_contra hne
    rw [hrun, haddlr, if_neg hne] at hok
    have hsome := runRest_ok_tslits_isSome ops par ednum ncols xint arms io au ps
      ea2 l2 r2 _ st hok
    rw [hnone] at hsome
    cases hsome
  · intro h0
    refine ⟨⟨none, ((detect ops par).2 ++ ["_match_edges"]) ++ ["_add_left_right"]⟩,
      ?_, rfl⟩
    rw [hrun, haddlr, if_pos h0]
  · intro h0
    rw [hrun, haddlr, if_pos h0]
    simp [List.append_assoc]

/-- Core operations whose `_add_left_right` stage reports zero edges on
both sides. -/
def noneOps : CoreOps :=
  { degOps with
    matchEdges := fun ea => (ea, 1, 1)
    addLeftRight := fun ea _ _ => (ea, 0, 0) }

/-- Witness for `run_none_iff_zero_counts`: with zero counts after
`_add_left_right`, `run` returns the `None` outcome and the steps log ends
at `_add_left_right`. -/
theorem run_none_iff_zero_counts_witness :
    run noneOps degPar 5 100 [0, 1] true false false none =
      .ok ⟨none, ["make_binarr", "_edgearr_from_binarr", "_match_edges",
                  "_add_left_right"]⟩ :=
  (run_none_iff_zero_counts noneOps degPar 5 100 [0, 1] true false false none
    [[-1, -2, 1]] 1 1 rfl (by decide) (by decide) [[-1, -2, 1]] 0 0 rfl).2
    ⟨rfl, rfl⟩

/-!
## Claim C2 — the longslit shortcut
-/

/-- C2: when after the per-side fits exactly one left and one right edge
group survive (`lmax+1-lmin = 1` and `rmax+1-rmin = 1`), `run` takes the
longslit shortcut: no `_synchronize`, `_pca_*` or `_trim_slits` step is
logged (the steps log gains only the two fit steps), `lcen` and `rcen`
are single-column arrays of height `|xint| = nrows` obtained by evaluating
the two fitted polynomials over all rows, and the extrapolated mask is the
length-1 all-`False` array. -/
theorem runFits_longslit_shortcut (ops : CoreOps) (par : RunPar) (ncols : ℕ)
    (xint : List ℚ) (arms : Bool) (ps : Option ℚ) (ea : EdgeArr)
    (steps : List String) (lmin lmax rmin rmax : ℤ)
    (hset : setLrminx ea = some (lmin, lmax, rmin, rmax))
    (hl : lmax + 1 - lmin = 1) (hr : rmax + 1 - rmin = 1) :
    ∃ d : TslitsDict,
      runFits ops par ncols xint arms ps ea steps =
        .ok ⟨some d, steps ++ ["_fit_edges_left", "_fit_edges_right"]⟩ ∧
      d.lcen = [xint.map (fun x =>
        funcVal (firstCol (ops.fitEdges ea lmin lmax true)) x
          (xint.headD 0) (xint.getLastD 0))] ∧
      d.rcen = [xint.map (fun x =>
        funcVal (firstCol (ops.fitEdges ea rmin rmax false)) x
          (xint.headD 0) (xint.getLastD 0))] ∧
      d.extrapord = [false] ∧
      d.lcen.map List.length = [xint.length] ∧
      d.rcen.map List.length = [xint.length] := by
  refine ⟨fillDict ops.pix
    [xint.map (fun x => funcVal (firstCol (ops.fitEdges ea lmin lmax true)) x
      (xint.headD 0) (xint.getLastD 0))]
    [xint.map (fun x => funcVal (firstCol (ops.fitEdges ea rmin rmax false)) x
      (xint.headD 0) (xint.getLastD 0))]
    [false], ?_, rfl, rfl, rfl,
    by simp [fillDict, makePixelArrays, initPixState],
    by simp [fillDict, makePixelArrays, initPixState]⟩
  unfold runFits
  rw [hset]
  simp only []
  rw [if_pos ⟨hl, hr⟩]

/-- Core operations for a longslit run: a single left group (pixel `-3`)
and a single right group (pixel `4`), with constant fitted polynomials. -/
def longOps : CoreOps :=
  { degOps with
    fitEdges := fun _ _ _ left => if left then [[2]] else [[3]] }

/-- Witness for `runFits_longslit_shortcut` at a concrete single-slit
state: one left and one right group, fits evaluated over two rows. -/
theorem runFits_longslit_shortcut_witness :
    ∃ d : TslitsDict,
      runFits longOps degPar 100 [0, 1] true (some 1) [[-3, 4]] [] =
        .ok ⟨some d, [] ++ ["_fit_edges_left", "_fit_edges_right"]⟩ ∧
      d.lcen = [List.map (fun x =>
        funcVal (firstCol (longOps.fitEdges [[-3, 4]] 3 3 true)) x
          (List.headD [(0 : ℚ), 1] 0) (List.getLastD [(0 : ℚ), 1] 0)) [0, 1]] ∧
      d.rcen = [List.map (fun x =>
        funcVal (firstCol (longOps.fitEdges [[-3, 4]] 4 4 false)) x
          (List.headD [(0 : ℚ), 1] 0) (List.getLastD [(0 : ℚ), 1] 0)) [0, 1]] ∧
      d.extrapord = [false] ∧
      d.lcen.map List.length = [List.length [(0 : ℚ), 1]] ∧
      d.rcen.map List.length = [List.length [(0 : ℚ), 1]] :=
  runFits_longslit_shortcut longOps degPar 100 [0, 1] true (some 1) [[-3, 4]] []
    3 3 4 4 (by decide) (by decide) (by decide)

/-!
## Claim C10 — `plate_scale = None` on the general multi-slit path
-/

/-- C10 (amended): with `arms = True` and the default `plate_scale = None`,
whenever `run`'s general path reaches `_trim_slits` with at least one slit
the multiplication by `plate_scale` raises `TypeError`; consequently a run
that completes through the trimming stage under the default `plate_scale`
can only carry the empty slit set (all slits dropped by the PCA stage) —
otherwise `run` completes only via the no-slits or longslit paths. -/
theorem runFits_default_plate_scale (ops : CoreOps) (par : RunPar) (ncols : ℕ)
    (xint : List ℚ) (ea : EdgeArr) (steps : List String) (out : RunOut)
    (d : TslitsDict)
    (h : runFits ops par ncols xint true none ea steps = .ok out)
    (hlast : out.steps.getLast? = some "_trim_slits")
    (hd : out.tslits = some d) :
    (d.lcen = [] ∧ d.rcen = []) ∧
    (∀ (ncols2 : ℕ) (minW : ℚ) (slits : List Slit), slits ≠ [] →
      trim_slits true none ncols2 minW slits = .error .typeError) := by
  refine ⟨?_, ?_⟩
  · unfold runFits at h
    split at h
    · cases h
    · split at h
      · injection h with h2
        subst h2
        rw [List.getLast?_append_cons] at hlast
        simp at hlast
      · simp only [] at h
        have hout := runTrimStage_none_plate_scale ops par ncols _ _ _ out h
        subst hout
        simp only [RunOut.tslits] at hd
        injection hd with hd2
        subst hd2
        exact ⟨rfl, rfl⟩
  · intro ncols2 minW slits hne
    cases slits with
    | nil => exact absurd rfl hne
    | cons a l => rfl

/-- Core operations whose synchronized curves all contain a zero entry, so
the no-PCA stage drops every slit and trimming sees an empty set. -/
def zeroOps : CoreOps :=
  { degOps with syncEdges := fun _ _ _ => ([[0, 1]], [[1, 1]]) }

/-- Witness for `runFits_default_plate_scale`: a concrete general-path run
under `plate_scale = None` that completes carries the empty slit set, and a
concrete nonempty slit set makes `_trim_slits` raise `TypeError`. -/
theorem runFits_default_plate_scale_witness :
    ((fillDict trivPixOps [] [] []).lcen = [] ∧
      (fillDict trivPixOps [] [] []).rcen = []) ∧
    trim_slits true none 7 1 [([1], [2])] = .error .typeError := by
  have h := runFits_default_plate_scale zeroOps degPar 100 [0, 1] [[-1, -2, 1]] []
    ⟨some (fillDict trivPixOps [] [] []),
     ["_fit_edges_left", "_fit_edges_right", "_synchronize", "_trim_slits"]⟩
    (fillDict trivPixOps [] [] [])
    (by with_unfolding_all rfl) rfl rfl
  exact ⟨h.1, h.2 7 1 [([1], [2])] (by simp)⟩

/-- C10 counterexample: with all default arguments (`arms = True`,
`plate_scale = None`), `run` completes through the general trimming path —
neither the no-slits return (`tslits` is set) nor the longslit shortcut
(the last logged step is `_trim_slits`) — because the PCA stage dropped
every slit, so "run can only complete via the no-slits or longslit paths"
is false as stated. -/
theorem run_completes_generally_with_default_plate_scale :
    ∃ out : RunOut, run zeroOps degPar 5 100 [0, 1] true false false none = .ok out ∧
      out.tslits.isSome = true ∧ out.steps.getLast? = some "_trim_slits" := by
  refine ⟨⟨some (fillDict trivPixOps [] [] []),
    ["make_binarr", "_edgearr_from_binarr", "_match_edges", "_add_left_right",
     "_assign_edges", "_final_left_right", "_mslit_tcrude", "_mslit_sync",
     "_fit_edges_left", "_fit_edges_right", "_synchronize", "_trim_slits"]⟩,
    ?_, rfl, rfl⟩
  with_unfolding_all rfl

/-!
## Claim C5 — the edge-id budget check
-/

/-- Core operations whose matcher reports exactly `ednum = 2` left groups. -/
def budgetOps : CoreOps :=
  { degOps with matchEdges := fun ea => (ea, 2, 0) }

/-- C5 counterexample: with `ednum = 2` and a left count of exactly 2 — a
count that does *not* exceed the budget — `_match_edges` nevertheless
aborts: the code fails on `lcnt >= ednum`, not only on `lcnt > ednum`, so
"fails if and only if the count exceeds ednum" is false as stated. -/
theorem matchEdgesStep_fails_at_budget :
    matchEdgesStep budgetOps 2 [] = .error .budgetError ∧
      ¬((2 : ℕ) > 2 ∨ (0 : ℕ) > 2) :=
  ⟨rfl, by omega⟩

/-- C5 (amended): `_match_edges` fails exactly when the count on either
side reaches or exceeds the edge-id budget `ednum` (`lcnt ≥ ednum` or
`rcnt ≥ ednum`); otherwise it passes the matcher's image and both counts
through unchanged — it never truncates the group set. -/
theorem matchEdgesStep_error_iff (ops : CoreOps) (ednum : ℕ) (ea ea1 : EdgeArr)
    (l r : ℕ) (h : ops.matchEdges ea = (ea1, l, r)) :
    ((∃ e, matchEdgesStep ops ednum ea = .error e) ↔ (l ≥ ednum ∨ r ≥ ednum)) ∧
    (l < ednum → r < ednum → matchEdgesStep ops ednum ea = .ok (ea1, l, r)) := by
  have hstep : matchEdgesStep ops ednum ea =
      if l ≥ ednum ∨ r ≥ ednum then .error .budgetError else .ok (ea1, l, r) := by
    unfold matchEdgesStep
    rw [h]
  constructor
  · constructor
    · rintro ⟨e, he⟩
      by_contra hne
      rw [hstep, if_neg hne] at he
      cases he
    · intro hge
      exact ⟨.budgetError, by rw [hstep, if_pos hge]⟩
  · intro hl hr
    rw [hstep, if_neg (by omega)]

/-- Witness for `matchEdgesStep_error_iff`: counts `(2, 1)` under budget 5
pass through unchanged, and the failure condition is equivalent to
reaching the budget. -/
theorem matchEdgesStep_error_iff_witness :
    ((∃ e, matchEdgesStep degOps 5 [[-1, -2, 1]] = .error e) ↔
      ((2 : ℕ) ≥ 5 ∨ (1 : ℕ) ≥ 5)) ∧
    ((2 : ℕ) < 5 → (1 : ℕ) < 5 →
      matchEdgesStep degOps 5 [[-1, -2, 1]] = .ok ([[-1, -2, 1]], 2, 1)) :=
  matchEdgesStep_error_iff degOps 5 [[-1, -2, 1]] [[-1, -2, 1]] 2 1 rfl

/-!
## Claim C6 — trivial relabel when one group exists on a side
-/

/-- C6: when exactly one edge group exists on a side, `_assign_edges` does a
direct relabel only — on the left, every pixel `≤ -2*ednum` becomes
`-ednum`; on the right, every pixel `≥ 2*ednum` becomes `ednum`; all other
pixels are untouched — and `assign_slits` is not invoked for that side (the
result does not depend on `ops.assignSlits` in these branches). -/
theorem assignEdges_single_group_trivial (ops : CoreOps) (ednum : ℕ)
    (ea : EdgeArr) (h : 0 < ednum) :
    assignEdgesLeft ops ednum 1 ea =
      ea.map (List.map (fun v => if v ≤ -(2 * (ednum : ℤ)) then -(ednum : ℤ) else v)) ∧
    assignEdgesRight ops ednum 1 ea =
      ea.map (List.map (fun v => if v ≥ 2 * (ednum : ℤ) then (ednum : ℤ) else v)) ∧
    assignEdgesStep ops ednum 1 1 ea =
      ea.map (List.map (fun v =>
        if v ≤ -(2 * (ednum : ℤ)) then -(ednum : ℤ)
        else if v ≥ 2 * (ednum : ℤ) then (ednum : ℤ) else v)) := by
  refine ⟨rfl, rfl, ?_⟩
  unfold assignEdgesStep assignEdgesLeft assignEdgesRight
  rw [if_pos rfl, if_pos rfl, List.map_map]
  apply List.map_congr_left
  intro row _
  simp only [Function.comp_apply, List.map_map]
  apply List.map_congr_left
  intro v _
  simp only [Function.comp_apply]
  split_ifs <;> omega

/-- Witness for `assignEdges_single_group_trivial` at `ednum = 3` on a row
containing raw ids on both sides of the sentinels, together with the
concrete relabelled image. -/
theorem assignEdges_single_group_trivial_witness :
    (0 < 3 ∧
      assignEdgesStep degOps 3 1 1 [[-7, -6, 0, 5, 6, 7, -1]] =
        [[-7, -6, 0, 5, 6, 7, -1]].map (List.map (fun v =>
          if v ≤ -(2 * ((3 : ℕ) : ℤ)) then -((3 : ℕ) : ℤ)
          else if v ≥ 2 * ((3 : ℕ) : ℤ) then ((3 : ℕ) : ℤ) else v))) ∧
    assignEdgesStep degOps 3 1 1 [[-7, -6, 0, 5, 6, 7, -1]] =
      [[-3, -3, 0, 5, 3, 3, -1]] :=
  ⟨⟨by decide,
    (assignEdges_single_group_trivial degOps 3 [[-7, -6, 0, 5, 6, 7, -1]]
      (by decide)).2.2⟩,
   by decide⟩

/-!
## Claim C8 — rebuilding the pixel arrays is idempotent
-/

/-- C8: `_make_pixel_arrays` reads only `lcen`/`rcen`, the tweaked
boundaries and the (fixed) pixel-location collaborators, and writes only
the derived arrays; two successive invocations on the same state produce
identical `pixcen`, `pixwid`, `lordpix`, `rordpix`, `slitpix`, `ximg` and
`edge_mask` arrays. -/
theorem makePixelArrays_idempotent (pops : PixOps) (s : PixState) :
    makePixelArrays pops (makePixelArrays pops s) = makePixelArrays pops s := by
  cases s with
  | mk lcen rcen lt rt pc pw lo ro sp xi em => cases lt <;> rfl

/-!
## Claim C9 — `add_user_slits(run_to_finish=True)` cannot succeed
-/

/-- C9: the `run_to_finish` branch of `add_user_slits` never returns
successfully for any instance state and any stage behaviour: the trimming
call's keyword argument refers to the bare name `plate_scale`, which is
bound neither in the method's local scope nor at module level, so Python
raises `NameError` there (and any earlier stage failure also aborts the
branch); in particular with stages that never raise, the branch fails with
exactly `NameError` on `plate_scale`. -/
theorem add_user_slits_run_to_finish_never_succeeds :
    (∀ (S : Type) (ops : FinishOps S) (addEdges : S → S) (st out : S),
        add_user_slits ops addEdges true st ≠ .ok out) ∧
    lookupName addUserSlitsScopeNames traceslitsModuleGlobals "plate_scale" =
      .error (.nameError "plate_scale") ∧
    (∀ (S : Type) (f1 f2 f3 f4 f5 g : S → S) (addEdges : S → S) (st : S),
        add_user_slits (totalFinishOps f1 f2 f3 f4 f5 g) addEdges true st =
          .error (.nameError "plate_scale")) := by
  refine ⟨?_, rfl, ?_⟩
  · intro S ops addEdges st out h
    unfold add_user_slits at h
    rw [if_pos rfl] at h
    split at h
    · cases h
    · split at h
      · cases h
      · split at h
        · cases h
        · split at h
          · cases h
          · split at h
            · cases h
            · split at h
              · cases h
              · rename_i hlook
                cases hlook
  · intro S f1 f2 f3 f4 f5 g addEdges st
    rfl

/-- Witness for `add_user_slits_run_to_finish_never_succeeds` on a concrete
unit state with stages that never raise. -/
theorem add_user_slits_run_to_finish_never_succeeds_witness :
    add_user_slits (totalFinishOps (fun u : Unit => u) id id id id id) id true () =
      .error (.nameError "plate_scale") :=
  add_user_slits_run_to_finish_never_succeeds.2.2 Unit
    (fun u => u) id id id id id id ()

/-!
## Claim C7 — the smoother
-/

/-- Indexing a mapped range, in range. -/
theorem getD_map_range {α : Type} (f : ℕ → α) (d : α) (n r : ℕ) (h : r < n) :
    ((List.range n).map f).getD r d = f r := by
  rw [List.getD_eq_getElem?_getD, List.getElem?_map, List.getElem?_range h]
  rfl

/-- Indexing a mapped range, out of range. -/
theorem getD_map_range_ge {α : Type} (f : ℕ → α) (d : α) (n r : ℕ) (h : n ≤ r) :
    ((List.range n).map f).getD r d = d := by
  rw [List.getD_eq_getElem?_getD, List.getElem?_eq_none (by simpa using h)]
  rfl

/-- In-range entries of `make_binarr` are window means. -/
theorem entryQ_make_binarr (img : List (List ℚ)) (r c : ℕ)
    (hr : r < img.length) (hc : c < (img.getD r []).length) :
    entryQ (make_binarr img) r c = windowMean 3 img r c := by
  unfold entryQ make_binarr uniform_filter_axis0
  rw [getD_map_range _ _ _ _ hr, getD_map_range _ _ _ _ hc]

/-- Entries of `make_binarr` beyond the row's width are the default 0. -/
theorem entryQ_make_binarr_col_ge (img : List (List ℚ)) (r c : ℕ)
    (hr : r < img.length) (hc : (img.getD r []).length ≤ c) :
    entryQ (make_binarr img) r c = 0 := by
  unfold entryQ make_binarr uniform_filter_axis0
  rw [getD_map_range _ _ _ _ hr, getD_map_range_ge _ _ _ _ hc]

/-- Entries of `make_binarr` beyond the image height are the default 0. -/
theorem entryQ_make_binarr_row_ge (img : List (List ℚ)) (r c : ℕ)
    (hr : img.length ≤ r) :
    entryQ (make_binarr img) r c = 0 := by
  unfold entryQ make_binarr uniform_filter_axis0
  rw [getD_map_range_ge _ _ _ _ hr]
  rfl

/-- The size-3 window mean written as the three mirrored taps. -/
theorem windowMean_three (img : List (List ℚ)) (r c : ℕ) :
    windowMean 3 img r c =
      (getPixQ img ((r : ℤ) - 1) c + getPixQ img (r : ℤ) c +
        getPixQ img ((r : ℤ) + 1) c) / 3 := by
  unfold windowMean
  norm_num [List.range_succ]
  rw [show (r : ℤ) + 2 - 1 = (r : ℤ) + 1 by ring]
  ring

/-- The center tap reads the row itself. -/
theorem getPixQ_self (img : List (List ℚ)) (r c : ℕ) (hr : r < img.length) :
    getPixQ img (r : ℤ) c = entryQ img r c := by
  unfold getPixQ reflectIdx entryQ
  rw [if_neg (by omega), if_neg (by omega)]
  simp

/-- The upper tap reads row `r-1`, mirrored to row 1 at the top boundary. -/
theorem getPixQ_sub_one (img : List (List ℚ)) (r c : ℕ)
    (hr : r < img.length) :
    getPixQ img ((r : ℤ) - 1) c = entryQ img (if r = 0 then 1 else r - 1) c := by
  by_cases h0 : r = 0
  · subst h0
    unfold getPixQ reflectIdx entryQ
    norm_num
  · unfold getPixQ reflectIdx entryQ
    rw [if_neg (by omega), if_neg (by omega),
      show ((r : ℤ) - 1).toNat = r - 1 by omega, if_neg h0]

/-- The lower tap reads row `r+1`, mirrored to row `n-2` at the bottom
boundary. -/
theorem getPixQ_add_one (img : List (List ℚ)) (r c : ℕ)
    (hn : 2 ≤ img.length) (hr : r < img.length) :
    getPixQ img ((r : ℤ) + 1) c =
      entryQ img (if r = img.length - 1 then img.length - 2 else r + 1) c := by
  by_cases hl : r = img.length - 1
  · unfold getPixQ reflectIdx entryQ
    rw [if_neg (by omega), if_pos (by omega),
      show (2 * ((img.length : ℤ) - 1) - ((r : ℤ) + 1)).toNat = img.length - 2 by omega,
      if_pos hl]
  · unfold getPixQ reflectIdx entryQ
    rw [if_neg (by omega), if_neg (by omega),
      show ((r : ℤ) + 1).toNat = r + 1 by omega, if_neg hl]

/-- C7: `make_binarr` smooths along the spectral axis only with mirrored
boundaries and is deterministic: (1) each in-range output pixel is the mean
of the 3-row window centered on it, with the out-of-range taps mirrored
(`-1 ↦ 1`, `n ↦ n-2`); (2) column `c` of the output depends only on column
`c` of the input — no smoothing along the spatial axis.  (The filter width
is fixed to 3 in the code.) -/
theorem make_binarr_spectral_only_mirrored :
    (∀ (img : List (List ℚ)) (r c : ℕ), 2 ≤ img.length → r < img.length →
      c < (img.getD r []).length →
      entryQ (make_binarr img) r c =
        (entryQ img (if r = 0 then 1 else r - 1) c + entryQ img r c +
          entryQ img (if r = img.length - 1 then img.length - 2 else r + 1) c) / 3) ∧
    (∀ (img1 img2 : List (List ℚ)) (c : ℕ),
      img1.length = img2.length →
      (∀ i, (img1.getD i []).length = (img2.getD i []).length) →
      (∀ i, entryQ img1 i c = entryQ img2 i c) →
      ∀ r, entryQ (make_binarr img1) r c = entryQ (make_binarr img2) r c) := by
  constructor
  · intro img r c hn hr hc
    rw [entryQ_make_binarr img r c hr hc, windowMean_three,
      getPixQ_sub_one img r c hr, getPixQ_self img r c hr,
      getPixQ_add_one img r c hn hr]
  · intro img1 img2 c hlen hrows hent r
    have hpix : ∀ i : ℤ, getPixQ img1 i c = getPixQ img2 i c := by
      intro i
      show entryQ img1 (reflectIdx img1.length i).toNat c =
        entryQ img2 (reflectIdx img2.length i).toNat c
      rw [hlen]
      exact hent _
    rcases lt_or_ge r img1.length with hr | hr
    · rcases lt_or_ge c ((img1.getD r []).length) with hc | hc
      · rw [entryQ_make_binarr img1 r c hr hc,
          entryQ_make_binarr img2 r c (hlen ▸ hr) ((hrows r) ▸ hc),
          windowMean_three, windowMean_three]
        simp only [hpix]
      · rw [entryQ_make_binarr_col_ge img1 r c hr hc,
          entryQ_make_binarr_col_ge img2 r c (hlen ▸ hr) ((hrows r) ▸ hc)]
    · rw [entryQ_make_binarr_row_ge img1 r c hr,
        entryQ_make_binarr_row_ge img2 r c (hlen ▸ hr)]

/-- Witness for `make_binarr_spectral_only_mirrored`: on a 3-row column the
top output pixel is the mirrored mean `(4+1+4)/3 = 3`, and two images that
agree on column 0 but differ on column 1 produce identical column-0
output. -/
theorem make_binarr_spectral_only_mirrored_witness :
    entryQ (make_binarr [[1], [4], [7]]) 0 0 = 3 ∧
    entryQ (make_binarr [[1, 9], [4, 8], [7, 7]]) 1 0 =
      entryQ (make_binarr [[1, 5], [4, 6], [7, 3]]) 1 0 := by
  constructor
  · rw [(make_binarr_spectral_only_mirrored).1 [[1], [4], [7]] 0 0
      (by norm_num) (by norm_num) (by norm_num)]
    norm_num [entryQ]
  · exact (make_binarr_spectral_only_mirrored).2
      [[1, 9], [4, 8], [7, 7]] [[1, 5], [4, 6], [7, 3]] 0 (by norm_num)
      (fun i => by rcases i with _ | _ | _ | i <;> rfl)
      (fun i => by rcases i with _ | _ | _ | i <;> rfl) 1
